import Mathlib

/-!
# BraccioV3: joint-position controller

A shallow embedding of `BraccioV3.h` / `BraccioV3.cpp`.

* A C++ `int` value is an `Int`. The `int` arithmetic of `_moveServo` is 32-bit
  and wraps around on overflow, as the compiled code does (`wrapInt`); a state
  whose entries are `int` values has them in `inIntRange`. The sum of
  `setOneRelative` is taken over unbounded integers: its statement is about
  calls whose sum does not overflow.
* The `int[7]` member arrays are functions `Fin 7 → Int`; a joint argument is
  an index of type `Fin 7` (an index outside the array is undefined behaviour
  in C++ and is excluded by the type).
* The PWM driver member `_pwm` is modelled by the list of `setPin(num, val, false)`
  calls issued so far, oldest first.
-/

namespace BraccioV3

/-! ## Constants of `BraccioV3.h` -/

/-- Base rotation joint (`#define BASE_ROT 1`). -/
def BASE_ROT : Fin 7 := 1
/-- Shoulder joint (`#define SHOULDER 2`). -/
def SHOULDER : Fin 7 := 2
/-- Elbow joint (`#define ELBOW 3`). -/
def ELBOW : Fin 7 := 3
/-- Wrist joint (`#define WRIST 4`). -/
def WRIST : Fin 7 := 4
/-- Wrist rotation joint (`#define WRIST_ROT 5`). -/
def WRIST_ROT : Fin 7 := 5
/-- Gripper joint (`#define GRIPPER 6`). -/
def GRIPPER : Fin 7 := 6

/-- PCA9685 output port of the base rotation servo. -/
def _BASE_ROT_PIN : Int := 1
/-- PCA9685 output port of the shoulder servo. -/
def _SHOULDER_PIN : Int := 2
/-- PCA9685 output port of the elbow servo. -/
def _ELBOW_PIN : Int := 3
/-- PCA9685 output port of the wrist servo. -/
def _WRIST_PIN : Int := 4
/-- PCA9685 output port of the wrist rotation servo. -/
def _WRIST_ROT_PIN : Int := 5
/-- PCA9685 output port of the gripper servo. -/
def _GRIPPER_PIN : Int := 6

/-- Global minimum for all servos (`#define GLOBAL_MIN 0`). -/
def GLOBAL_MIN : Int := 0
/-- Global maximum for all servos (`#define GLOBAL_MAX 180`). -/
def GLOBAL_MAX : Int := 180

/-! ## Arduino core helpers used by the library -/

/-- Arduino core macro
`constrain(amt,low,high) ((amt)<(low)?(low):((amt)>(high)?(high):(amt)))`. -/
def constrain (amt low high : Int) : Int :=
  if amt < low then low else if amt > high then high else amt

/-- The value of a 32-bit `int` operation whose mathematical result is `x`: `x`
reduced modulo `2^32` into `[-2^31, 2^31)`. -/
def wrapInt (x : Int) : Int := (x + 2147483648) % 4294967296 - 2147483648

/-- The values of a 32-bit `int`: `INT_MIN ≤ x ≤ INT_MAX`. -/
def inIntRange (x : Int) : Prop := -2147483648 ≤ x ∧ x ≤ 2147483647

instance inIntRange.decidable (x : Int) : Decidable (inIntRange x) := by
  unfold inIntRange
  infer_instance

/-- Arduino core function `map`:
`(x - in_min) * (out_max - out_min) / (in_max - in_min) + out_min`,
with the truncating division of C. -/
def map (x in_min in_max out_min out_max : Int) : Int :=
  Int.tdiv ((x - in_min) * (out_max - out_min)) (in_max - in_min) + out_min

/-! ## The controller state -/

/-- The data members of `class Braccio`. -/
structure Braccio where
  /-- Member `int currentJointPositions[7]`. -/
  currentJointPositions : Fin 7 → Int
  /-- Member `int targetJointPositions[7]`. -/
  targetJointPositions : Fin 7 → Int
  /-- Member `int _jointMax[7]`. -/
  _jointMax : Fin 7 → Int
  /-- Member `int _jointMin[7]`. -/
  _jointMin : Fin 7 → Int
  /-- Member `int _jointCenter[7]`. -/
  _jointCenter : Fin 7 → Int
  /-- Member `int _jointDelta[7]`. -/
  _jointDelta : Fin 7 → Int
  /-- The `_pwm.setPin(num, val, false)` calls issued so far, oldest first,
  each recorded as `(num, val)`. -/
  _pwm : List (Int × Int)

/-- C++ aggregate initialisation of an `int[7]` from a brace list: the listed
values fill the array from index 0, the remaining elements are zero. -/
def arrayInit (l : List Int) : Fin 7 → Int := fun i => l.getD i.val 0

namespace Braccio

/-- The state after `Braccio::Braccio()`: the default member initialisers of
the header for the four calibration tables and no driver call yet. The two
position arrays have no initialiser, so their contents are arbitrary and are
taken as arguments. -/
def ctor (cur tgt : Fin 7 → Int) : Braccio where
  currentJointPositions := cur
  targetJointPositions := tgt
  _jointMax := arrayInit [180, 165, 180, 180, 180, 73]
  _jointMin := arrayInit [0, 15, 0, 0, 0, 10]
  _jointCenter := arrayInit [90, 90, 90, 90, 90, 50]
  _jointDelta := arrayInit [1, 1, 1, 1, 1, 1]
  _pwm := []

/-- Method `Braccio::setOneAbsolute`. -/
def setOneAbsolute (st : Braccio) (joint : Fin 7) (value : Int) : Braccio × Bool :=
  let out := constrain value (st._jointMin joint) (st._jointMax joint)
  ({ st with targetJointPositions := Function.update st.targetJointPositions joint out },
    decide ((joint.val : Int) = out))

/-- Method `Braccio::setOneRelative`. -/
def setOneRelative (st : Braccio) (joint : Fin 7) (value : Int) : Braccio × Bool :=
  let currentPos := st.targetJointPositions joint
  let rawPos := currentPos + value
  let actualPos := constrain rawPos (st._jointMin joint) (st._jointMax joint)
  ({ st with targetJointPositions := Function.update st.targetJointPositions joint actualPos },
    decide (rawPos = actualPos))

/-- Method `Braccio::setAllAbsolute`: the six calls are chained with the
non-short-circuit `&`, so every one of them runs. -/
def setAllAbsolute (st : Braccio) (b s e w w_r g : Int) : Braccio × Bool :=
  let out := true
  let r1 := setOneAbsolute st BASE_ROT b
  let out := out && r1.2
  let r2 := setOneAbsolute r1.1 SHOULDER s
  let out := out && r2.2
  let r3 := setOneAbsolute r2.1 ELBOW e
  let out := out && r3.2
  let r4 := setOneAbsolute r3.1 WRIST w
  let out := out && r4.2
  let r5 := setOneAbsolute r4.1 WRIST_ROT w_r
  let out := out && r5.2
  let r6 := setOneAbsolute r5.1 GRIPPER g
  let out := out && r6.2
  (r6.1, out)

/-- Method `Braccio::setAllRelative`: as `setAllAbsolute`, with `setOneRelative`. -/
def setAllRelative (st : Braccio) (b s e w w_r g : Int) : Braccio × Bool :=
  let out := true
  let r1 := setOneRelative st BASE_ROT b
  let out := out && r1.2
  let r2 := setOneRelative r1.1 SHOULDER s
  let out := out && r2.2
  let r3 := setOneRelative r2.1 ELBOW e
  let out := out && r3.2
  let r4 := setOneRelative r3.1 WRIST w
  let out := out && r4.2
  let r5 := setOneRelative r4.1 WRIST_ROT w_r
  let out := out && r5.2
  let r6 := setOneRelative r5.1 GRIPPER g
  let out := out && r6.2
  (r6.1, out)

/-- Method `Braccio::setJointMax`. -/
def setJointMax (st : Braccio) (joint : Fin 7) (value : Int) : Braccio :=
  { st with _jointMax := Function.update st._jointMax joint (constrain value GLOBAL_MIN GLOBAL_MAX) }

/-- Method `Braccio::setJointMin`. -/
def setJointMin (st : Braccio) (joint : Fin 7) (value : Int) : Braccio :=
  { st with _jointMin := Function.update st._jointMin joint (constrain value GLOBAL_MIN GLOBAL_MAX) }

/-- Method `Braccio::setJointCenter`. -/
def setJointCenter (st : Braccio) (joint : Fin 7) (offset : Int) : Braccio :=
  { st with _jointCenter := Function.update st._jointCenter joint (constrain offset GLOBAL_MIN GLOBAL_MAX) }

/-- Method `Braccio::setDelta`. -/
def setDelta (st : Braccio) (joint : Fin 7) (value : Int) : Braccio :=
  { st with _jointDelta := Function.update st._jointDelta joint value }

/-- The call `_pwm.setPin(num, val, false)`, recorded in the driver log. -/
def setPin (st : Braccio) (num val : Int) : Braccio :=
  { st with _pwm := st._pwm ++ [(num, val)] }

/-- The body shared by the six `case` arms of the `switch` of `_setServo`:
the arm of joint constant `J` with pin constant `pin`. -/
def servoCase (st : Braccio) (pin : Int) (J : Fin 7) (pwm_duty_cycle value : Int)
    (updateTarget : Bool) : Braccio :=
  let st1 := setPin st pin pwm_duty_cycle
  let st2 := { st1 with currentJointPositions := Function.update st1.currentJointPositions J value }
  if updateTarget then
    { st2 with targetJointPositions := Function.update st2.targetJointPositions J value }
  else st2

/-- Method `Braccio::_setServo`: a `switch` over the six joint constants, with no
`default` arm. -/
def _setServo (st : Braccio) (joint : Fin 7) (value : Int) (updateTarget : Bool) : Braccio :=
  let pwm_duty_cycle := map value 0 180 0 4096
  if joint = BASE_ROT then servoCase st _BASE_ROT_PIN BASE_ROT pwm_duty_cycle value updateTarget
  else if joint = SHOULDER then servoCase st _SHOULDER_PIN SHOULDER pwm_duty_cycle value updateTarget
  else if joint = ELBOW then servoCase st _ELBOW_PIN ELBOW pwm_duty_cycle value updateTarget
  else if joint = WRIST then servoCase st _WRIST_PIN WRIST pwm_duty_cycle value updateTarget
  else if joint = WRIST_ROT then
    servoCase st _WRIST_ROT_PIN WRIST_ROT pwm_duty_cycle value updateTarget
  else if joint = GRIPPER then servoCase st _GRIPPER_PIN GRIPPER pwm_duty_cycle value updateTarget
  else st

/-- Method `Braccio::setAllNow`. -/
def setAllNow (st : Braccio) (b s e w w_r g : Int) : Braccio :=
  let st := _setServo st BASE_ROT b true
  let st := _setServo st SHOULDER s true
  let st := _setServo st ELBOW e true
  let st := _setServo st WRIST w true
  let st := _setServo st WRIST_ROT w_r true
  _setServo st GRIPPER g true

/-- Method `Braccio::_initializeServos`. -/
def _initializeServos (st : Braccio) (defaultPos : Bool) : Braccio :=
  if defaultPos then
    setAllNow st (st._jointCenter BASE_ROT) (st._jointCenter SHOULDER) (st._jointCenter ELBOW)
      (st._jointCenter WRIST) (st._jointCenter WRIST_ROT) (st._jointCenter GRIPPER)
  else st

/-- Method `Braccio::begin(bool defaultPos)`. -/
def begin (st : Braccio) (defaultPos : Bool) : Braccio := _initializeServos st defaultPos

/-- Method `Braccio::begin()`. -/
def begin0 (st : Braccio) : Braccio := _initializeServos st true

/-- Method `Braccio::getCenter`. -/
def getCenter (st : Braccio) (joint : Fin 7) : Int := st._jointCenter joint

/-- Method `Braccio::_moveServo`. The product `dir * delta` and the sum
`currentPos + dirDelta` are `int` operations and wrap around on overflow. -/
def _moveServo (st : Braccio) (joint : Fin 7) : Braccio :=
  let currentPos := st.currentJointPositions joint
  let targetPos := st.targetJointPositions joint
  if currentPos ≠ targetPos then
    let dir : Int := if currentPos ≤ targetPos then 1 else -1
    let delta := st._jointDelta joint
    let dirDelta := wrapInt (dir * delta)
    let newPos := wrapInt (currentPos + dirDelta)
    _setServo st joint newPos false
  else st

/-- Method `Braccio::update`. -/
def update (st : Braccio) : Braccio :=
  let st := _moveServo st BASE_ROT
  let st := _moveServo st SHOULDER
  let st := _moveServo st ELBOW
  let st := _moveServo st WRIST
  let st := _moveServo st WRIST_ROT
  _moveServo st GRIPPER

end Braccio

/-! ## Specification-side definitions -/

/-- The reading of "apply the per-joint operation to the six joints in a fixed
order": run `op` on each listed `(joint, value)` pair in turn, each call on the
state left by the previous one, and collect the boolean results in order. -/
def applyInOrder (op : Braccio → Fin 7 → Int → Braccio × Bool) :
    Braccio → List (Fin 7 × Int) → Braccio × List Bool
  | st, [] => (st, [])
  | st, (joint, value) :: rest =>
    let r := op st joint value
    let rr := applyInOrder op r.1 rest
    (rr.1, r.2 :: rr.2)

/-- The six `(joint, value)` pairs of a `setAll…` call, in the order
BASE_ROT, SHOULDER, ELBOW, WRIST, WRIST_ROT, GRIPPER. -/
def sixJoints (b s e w w_r g : Int) : List (Fin 7 × Int) :=
  [(BASE_ROT, b), (SHOULDER, s), (ELBOW, e), (WRIST, w), (WRIST_ROT, w_r), (GRIPPER, g)]

/-- A controller object with static storage right after construction: the two
position arrays are zero-filled, the calibration tables hold the defaults. -/
def powerOn : Braccio := Braccio.ctor (fun _ => 0) (fun _ => 0)

/-- The driver pin that the `switch` of `_setServo` writes for a joint: the
`_…_PIN` constant of the joint's `case` arm. Index 0 has no arm; it is given 0,
a pin that no arm writes. -/
def jointPin (joint : Fin 7) : Int :=
  if joint = BASE_ROT then _BASE_ROT_PIN
  else if joint = SHOULDER then _SHOULDER_PIN
  else if joint = ELBOW then _ELBOW_PIN
  else if joint = WRIST then _WRIST_PIN
  else if joint = WRIST_ROT then _WRIST_ROT_PIN
  else if joint = GRIPPER then _GRIPPER_PIN
  else 0

/-- One tick seen from a single joint: the position that `_moveServo` commits
for current position `c`, target `t` and step `s`, in wrapping `int`
arithmetic. -/
def stepPos (t s c : Int) : Int :=
  if c ≠ t then wrapInt (c + wrapInt ((if c ≤ t then 1 else -1) * s)) else c

/-- One tick as the specification describes it, over unbounded integers:
`newPosition = currentPosition + dir * stepSize` unless the joint is at its
target. -/
def idealStep (t s c : Int) : Int :=
  if c ≠ t then c + (if c ≤ t then 1 else -1) * s else c

/-- The tick count `ceil(|target - current| / stepSize)` of the specification,
in integer arithmetic (for a positive step). -/
def ticksToTarget (c t s : Int) : Int := (|t - c| + s - 1) / s

/-- A controller moving its base from 0 towards 100 in steps of 7:
the power-on state after `setOneAbsolute(BASE_ROT, 100)` and
`setDelta(BASE_ROT, 7)`. -/
def base7 : Braccio :=
  Braccio.setDelta (Braccio.setOneAbsolute powerOn BASE_ROT 100).1 BASE_ROT 7

/-- A controller whose base stands at 160, five below its limit of 165, and is
sent to that limit in steps of 7: from the power-on state,
`setAllNow(160, 90, 90, 90, 50, 0)`, `setDelta(GRIPPER, 1)`,
`setDelta(BASE_ROT, 7)`, `setOneAbsolute(BASE_ROT, 165)`. -/
def nearLimit : Braccio :=
  (Braccio.setOneAbsolute
    (Braccio.setDelta (Braccio.setDelta (Braccio.setAllNow powerOn 160 90 90 90 50 0) GRIPPER 1)
      BASE_ROT 7)
    BASE_ROT 165).1

/-- The limit invariant of the data model: every one of the six joints has its
current and its target position within `[minLimit, maxLimit]`. -/
def limitInvariant (st : Braccio) : Prop :=
  ∀ joint : Fin 7, joint ≠ 0 →
    st._jointMin joint ≤ st.currentJointPositions joint
    ∧ st.currentJointPositions joint ≤ st._jointMax joint
    ∧ st._jointMin joint ≤ st.targetJointPositions joint
    ∧ st.targetJointPositions joint ≤ st._jointMax joint

instance limitInvariant.decidable (st : Braccio) : Decidable (limitInvariant st) := by
  unfold limitInvariant
  infer_instance

/-- Every one of the six joints has a step of at least 1. -/
def stepsPositive (st : Braccio) : Prop :=
  ∀ joint : Fin 7, joint ≠ 0 → 1 ≤ st._jointDelta joint

instance stepsPositive.decidable (st : Braccio) : Decidable (stepsPositive st) := by
  unfold stepsPositive
  infer_instance

/-- The driver call that one tick issues for a joint: none when the joint is at
its target, otherwise one `setPin` of the joint's pin with the mapped new
position. -/
def jointWrite (st : Braccio) (joint : Fin 7) : List (Int × Int) :=
  if st.currentJointPositions joint ≠ st.targetJointPositions joint then
    [(jointPin joint,
      map (stepPos (st.targetJointPositions joint) (st._jointDelta joint)
        (st.currentJointPositions joint)) 0 180 0 4096)]
  else []

/-- The driver calls of one tick, in the order of the joints. -/
def tickWrites (st : Braccio) : List (Int × Int) :=
  jointWrite st BASE_ROT ++ jointWrite st SHOULDER ++ jointWrite st ELBOW
    ++ jointWrite st WRIST ++ jointWrite st WRIST_ROT ++ jointWrite st GRIPPER

/-- The duty-cycle formula of the interface description,
`round(angle * 4095 / 180)`, in integer arithmetic (halves round up). -/
def specDuty (angle : Int) : Int := (2 * angle * 4095 + 180) / 360

/-- The controller `base7` with the step of the base set to 0 by
`setDelta(BASE_ROT, 0)`. -/
def base0 : Braccio := Braccio.setDelta base7 BASE_ROT 0

/-- The controller `base7` with the step of the base set to -3 by
`setDelta(BASE_ROT, -3)`. -/
def baseNeg : Braccio := Braccio.setDelta base7 BASE_ROT (-3)

/-- A controller whose base stands at 100, is sent to 165 and has the largest
`int` as its step: from the power-on state, `setAllNow(100, 90, 90, 90, 50, 0)`,
`setOneAbsolute(BASE_ROT, 165)`, `setDelta(BASE_ROT, 2147483647)`. -/
def baseMax : Braccio :=
  Braccio.setDelta
    (Braccio.setOneAbsolute (Braccio.setAllNow powerOn 100 90 90 90 50 0) BASE_ROT 165).1
    BASE_ROT 2147483647

/-- The controller `base7` with the step of the base set to -2147483598 by
`setDelta(BASE_ROT, -2147483598)`. -/
def baseWrap : Braccio := Braccio.setDelta base7 BASE_ROT (-2147483598)

theorem constrain_eq_max_min (amt low high : Int) (h : low ≤ high) :
    constrain amt low high = max low (min amt high) := by
  unfold constrain
  split_ifs with h1 h2
  · rw [max_eq_left]; exact le_trans (min_le_left _ _) h1.le
  · rw [min_eq_right (le_of_lt h2), max_eq_right h]
  · rw [min_eq_left (not_lt.mp h2), max_eq_right (not_lt.mp h1)]

theorem constrain_mem (amt low high : Int) (h : low ≤ high) :
    low ≤ constrain amt low high ∧ constrain amt low high ≤ high := by
  unfold constrain
  split_ifs with h1 h2 <;> omega

theorem constrain_eq_self_iff (amt low high : Int) :
    amt = constrain amt low high ↔ low ≤ amt ∧ amt ≤ high := by
  unfold constrain
  split_ifs with h1 h2 <;> omega

/-! ## One joint under repeated ticks -/

theorem idealStep_iterate_up (t s c : Int) (hs : 0 ≤ s) (k : ℕ)
    (hk : (k : Int) * s < t - c + s) : (idealStep t s)^[k] c = c + k * s := by
  induction k with
  | zero => simp
  | succ n ih =>
    have hn : ((n : Int) + 1) * s < t - c + s := by exact_mod_cast hk
    have hn1 : (n : Int) * s < t - c := by linarith [add_mul (n : Int) 1 s]
    have ih1 : (idealStep t s)^[n] c = c + n * s := ih (by linarith)
    rw [Function.iterate_succ_apply', ih1, idealStep]
    have hne : c + (n : Int) * s ≠ t := by omega
    have hle : c + (n : Int) * s ≤ t := by omega
    rw [if_pos hne, if_pos hle]
    push_cast
    ring

theorem idealStep_iterate_down (t s c : Int) (hs : 0 ≤ s) (k : ℕ)
    (hk : (k : Int) * s < c - t + s) : (idealStep t s)^[k] c = c - k * s := by
  induction k with
  | zero => simp
  | succ n ih =>
    have hn : ((n : Int) + 1) * s < c - t + s := by exact_mod_cast hk
    have hn1 : (n : Int) * s < c - t := by linarith [add_mul (n : Int) 1 s]
    have ih1 : (idealStep t s)^[n] c = c - n * s := ih (by linarith)
    rw [Function.iterate_succ_apply', ih1, idealStep]
    have hne : c - (n : Int) * s ≠ t := by omega
    have hle : ¬ c - (n : Int) * s ≤ t := by omega
    rw [if_pos hne, if_neg hle]
    push_cast
    ring

/-- A tick changes a position by a multiple of the step. -/
theorem idealStep_iterate_dvd (t s c : Int) (k : ℕ) : s ∣ (idealStep t s)^[k] c - c := by
  induction k with
  | zero => simp
  | succ n ih =>
    rw [Function.iterate_succ_apply']
    obtain ⟨q, hq⟩ := ih
    generalize (idealStep t s)^[n] c = x at hq
    unfold idealStep
    split_ifs with h1 h2
    · exact ⟨q + 1, by linear_combination hq⟩
    · exact ⟨q - 1, by linear_combination hq⟩
    · exact ⟨q, hq⟩

theorem idealStep_iterate_ne (t s c : Int) (h : ¬ s ∣ t - c) (k : ℕ) :
    (idealStep t s)^[k] c ≠ t := by
  intro hk
  apply h
  rw [← hk]
  exact idealStep_iterate_dvd t s c k

theorem lt_ticksToTarget_iff (c t s : Int) (hs : 1 ≤ s) (k : Int) :
    k < ticksToTarget c t s ↔ k * s < |t - c| := by
  unfold ticksToTarget
  rw [← Int.add_one_le_iff, Int.le_ediv_iff_mul_le (by omega), add_mul]
  constructor <;> intro h <;> linarith

/-- For a positive step, `ticksToTarget` is the ceiling of the rational
quotient `|t - c| / s`. -/
theorem ticksToTarget_eq_ceil (c t s : Int) (hs : 1 ≤ s) :
    ticksToTarget c t s = ⌈((|t - c| : Int) : ℚ) / (s : ℚ)⌉ := by
  have hs0 : (0 : ℚ) < (s : ℚ) := by exact_mod_cast (show (0 : Int) < s by omega)
  have key : ∀ k : Int, k < ticksToTarget c t s ↔ k < ⌈((|t - c| : Int) : ℚ) / (s : ℚ)⌉ := by
    intro k
    rw [lt_ticksToTarget_iff c t s hs, Int.lt_ceil, lt_div_iff₀ hs0]
    norm_cast
  exact le_antisymm (le_of_forall_lt fun k hk => (key k).1 hk)
    (le_of_forall_lt fun k hk => (key k).2 hk)

/-- The integer formula `specDuty` is the rational `round(angle * 4095 / 180)`. -/
theorem specDuty_eq_round (angle : Int) :
    specDuty angle = round (((angle * 4095 : Int) : ℚ) / 180) := by
  have h : ((angle * 4095 : Int) : ℚ) / 180 + 1 / 2
      = ((2 * angle * 4095 + 180 : Int) : ℚ) / ((360 : ℕ) : ℚ) := by
    push_cast
    ring
  rw [round_eq, h, Rat.floor_intCast_div_natCast]
  rfl

/-- On non-negative angles the Arduino `map` onto `[0, 4096]` is the floor of
`angle * 4096 / 180`. -/
theorem map_angle_eq (angle : Int) (h : 0 ≤ angle) :
    map angle 0 180 0 4096 = angle * 4096 / 180 := by
  unfold map
  rw [Int.tdiv_eq_ediv (by omega) (by omega)]
  simp

/-! ## Wrapping `int` arithmetic against unbounded integers -/

theorem wrapInt_of_inIntRange (x : Int) (h : inIntRange x) : wrapInt x = x := by
  unfold inIntRange at h
  unfold wrapInt
  omega

theorem wrapInt_add_wrapInt (c x : Int) : wrapInt (c + wrapInt x) = wrapInt (c + x) := by
  unfold wrapInt
  omega

/-- The position committed by a tick is the wrapped position of the
specification's tick. -/
theorem stepPos_eq_wrapInt (t s c : Int) (hne : c ≠ t) :
    stepPos t s c = wrapInt (idealStep t s c) := by
  unfold stepPos idealStep
  rw [if_pos hne, if_pos hne, wrapInt_add_wrapInt]

/-- A tick whose new position is an `int` value does not overflow: it commits
the position of the specification's tick. -/
theorem stepPos_eq_idealStep (t s c : Int) (h : inIntRange (idealStep t s c)) :
    stepPos t s c = idealStep t s c := by
  by_cases hne : c = t
  · simp [stepPos, idealStep, hne]
  · rw [stepPos_eq_wrapInt t s c hne, wrapInt_of_inIntRange _ h]

/-- As long as the positions of the specification's ticks are `int` values, the
committed positions are these positions. -/
theorem stepPos_iterate_eq_idealStep (t s c : Int) (k : ℕ)
    (h : ∀ j : ℕ, j ≤ k → inIntRange ((idealStep t s)^[j] c)) :
    (stepPos t s)^[k] c = (idealStep t s)^[k] c := by
  induction k with
  | zero => rfl
  | succ n ih =>
    have hn := h (n + 1) le_rfl
    rw [Function.iterate_succ_apply'] at hn
    rw [Function.iterate_succ_apply', Function.iterate_succ_apply',
      ih (fun j hj => h j (by omega)), stepPos_eq_idealStep _ _ _ hn]

/-- Over unbounded integers and for a step `s ≥ 1`, every position of the run is
one of `c + sign(t - c) * j * s` with `j ≤ ceil(|t - c| / s)`. -/
theorem idealStep_iterate_mem (t s c : Int) (hs : 1 ≤ s) (m : ℕ) :
    ∃ j : ℕ, (j : Int) ≤ ticksToTarget c t s
      ∧ (idealStep t s)^[m] c = c + Int.sign (t - c) * j * s := by
  have hn0 : 0 ≤ ticksToTarget c t s := by
    unfold ticksToTarget
    exact Int.ediv_nonneg (by have := abs_nonneg (t - c); omega) (by omega)
  induction m with
  | zero => exact ⟨0, by simpa using hn0, by simp⟩
  | succ n ih =>
    obtain ⟨j, hj, hp⟩ := ih
    rw [Function.iterate_succ_apply', hp]
    have hlt := lt_ticksToTarget_iff c t s hs j
    have hjs : ((j : Int) + 1) * s = j * s + s := by ring
    rcases lt_trichotomy c t with hc | hc | hc
    · have habs : |t - c| = t - c := abs_of_pos (by omega)
      have hsign : Int.sign (t - c) = 1 := Int.sign_eq_one_of_pos (by omega)
      rw [habs] at hlt
      simp only [hsign, one_mul]
      by_cases hpt : c + (j : Int) * s = t
      · exact ⟨j, hj, by simp [idealStep, hpt]⟩
      · by_cases hjn : (j : Int) < ticksToTarget c t s
        · have := hlt.mp hjn
          refine ⟨j + 1, by push_cast; omega, ?_⟩
          unfold idealStep
          rw [if_pos hpt, if_pos (by omega)]
          push_cast
          ring
        · have hge : ¬ (j : Int) * s < t - c := fun h' => hjn (hlt.mpr h')
          have hj1 : 1 ≤ j := by
            rcases Nat.eq_zero_or_pos j with h0 | h0
            · subst h0; simp at hge; omega
            · exact h0
          refine ⟨j - 1, by omega, ?_⟩
          unfold idealStep
          rw [if_pos hpt, if_neg (by omega)]
          rw [Nat.cast_sub hj1]
          push_cast
          ring
    · subst hc
      exact ⟨j, hj, by simp [idealStep]⟩
    · have habs : |t - c| = c - t := by rw [abs_of_neg (by omega)]; ring
      have hsign : Int.sign (t - c) = -1 := Int.sign_eq_neg_one_of_neg (by omega)
      rw [habs] at hlt
      simp only [hsign]
      by_cases hpt : c + -1 * (j : Int) * s = t
      · exact ⟨j, hj, by rw [hpt]; simp [idealStep]⟩
      · have hpt' : c - (j : Int) * s ≠ t := fun h' => hpt (by linarith)
        by_cases hjn : (j : Int) < ticksToTarget c t s
        · have := hlt.mp hjn
          refine ⟨j + 1, by push_cast; omega, ?_⟩
          unfold idealStep
          rw [if_pos hpt, if_neg (by linarith)]
          push_cast
          ring
        · have hge : ¬ (j : Int) * s < c - t := fun h' => hjn (hlt.mpr h')
          have hj1 : 1 ≤ j := by
            rcases Nat.eq_zero_or_pos j with h0 | h0
            · subst h0; simp at hge; omega
            · exact h0
          refine ⟨j - 1, by omega, ?_⟩
          unfold idealStep
          rw [if_pos hpt, if_pos (by linarith)]
          rw [Nat.cast_sub hj1]
          push_cast
          ring

/-- When none of the positions `c + sign(t - c) * j * s`, `j ≤ ceil(|t - c| / s)`,
leaves the `int` range, no tick of the run overflows: the committed positions
are those of the specification's ticks, at every tick. -/
theorem stepPos_iterate_eq_idealStep_of_noOverflow (t s c : Int) (hs : 1 ≤ s)
    (hno : ∀ j : ℕ, (j : Int) ≤ ticksToTarget c t s →
      inIntRange (c + Int.sign (t - c) * j * s)) (k : ℕ) :
    (stepPos t s)^[k] c = (idealStep t s)^[k] c := by
  apply stepPos_iterate_eq_idealStep
  intro m _
  obtain ⟨j, hj, hp⟩ := idealStep_iterate_mem t s c hs m
  rw [hp]
  exact hno j hj

namespace Braccio

/-! ## Target-setting commands -/

/-- C1 (code defect): on a controller with the default tables, the request
`setOneAbsolute(SHOULDER, 90)` lies inside the shoulder limits and is stored
unchanged, yet the call returns `false`; and after `setJointMin(SHOULDER, 2)`
the out-of-range request `-5` is clamped to `2` and the call returns `true`.
The return value compares the joint number, not the request, with the stored
value. -/
theorem C1_setOneAbsolute_return_ignores_request :
    (powerOn._jointMin SHOULDER ≤ 90 ∧ 90 ≤ powerOn._jointMax SHOULDER
      ∧ (setOneAbsolute powerOn SHOULDER 90).1.targetJointPositions SHOULDER = 90
      ∧ (setOneAbsolute powerOn SHOULDER 90).2 = false)
    ∧ (¬ ((setJointMin powerOn SHOULDER 2)._jointMin SHOULDER ≤ -5)
      ∧ (setOneAbsolute (setJointMin powerOn SHOULDER 2) SHOULDER (-5)).1.targetJointPositions
          SHOULDER = 2
      ∧ (setOneAbsolute (setJointMin powerOn SHOULDER 2) SHOULDER (-5)).2 = true) := by
  decide

/-- C2: when `minLimit[joint] ≤ maxLimit[joint]`, `setOneAbsolute(joint, v)`
stores as the joint's target the value `v` clamped to the limits (Arduino
`constrain`, which is then `max min (min v max)`), and the stored target lies
in `[minLimit[joint], maxLimit[joint]]`. -/
theorem C2_setOneAbsolute_target_clamped (st : Braccio) (joint : Fin 7) (v : Int)
    (h : st._jointMin joint ≤ st._jointMax joint) :
    (setOneAbsolute st joint v).1.targetJointPositions joint
        = constrain v (st._jointMin joint) (st._jointMax joint)
    ∧ (setOneAbsolute st joint v).1.targetJointPositions joint
        = max (st._jointMin joint) (min v (st._jointMax joint))
    ∧ st._jointMin joint ≤ (setOneAbsolute st joint v).1.targetJointPositions joint
    ∧ (setOneAbsolute st joint v).1.targetJointPositions joint ≤ st._jointMax joint := by
  have hm := constrain_mem v _ _ h
  have he := constrain_eq_max_min v _ _ h
  simp only [setOneAbsolute, Function.update_same]
  exact ⟨trivial, he, hm.1, hm.2⟩

/-- Witness of C2 on the default shoulder limits `[0, 180]` with request 200. -/
theorem C2_setOneAbsolute_target_clamped_witness :
    (setOneAbsolute powerOn SHOULDER 200).1.targetJointPositions SHOULDER = 180
    ∧ powerOn._jointMin SHOULDER ≤ (setOneAbsolute powerOn SHOULDER 200).1.targetJointPositions
        SHOULDER :=
  ⟨by decide, (C2_setOneAbsolute_target_clamped powerOn SHOULDER 200 (by decide)).2.2.1⟩

/-- C3: `setOneRelative(joint, d)` from target `p` stores the clamped sum
(`constrain (p + d) min max`: `min` when the sum is below `min`, otherwise `max`
when it is above `max`, otherwise the sum itself), and returns `true` exactly
when `min ≤ p + d ≤ max`. -/
theorem C3_setOneRelative_clamped_sum (st : Braccio) (joint : Fin 7) (d : Int) :
    (setOneRelative st joint d).1.targetJointPositions joint
        = constrain (st.targetJointPositions joint + d) (st._jointMin joint) (st._jointMax joint)
    ∧ ((setOneRelative st joint d).2 = true ↔
        st._jointMin joint ≤ st.targetJointPositions joint + d
          ∧ st.targetJointPositions joint + d ≤ st._jointMax joint) := by
  simp only [setOneRelative, Function.update_same, decide_eq_true_eq]
  exact ⟨trivial, constrain_eq_self_iff _ _ _⟩

/-- C4: `setAllAbsolute` (respectively `setAllRelative`) leaves exactly the
state obtained by applying `setOneAbsolute` (respectively `setOneRelative`) to
BASE_ROT, SHOULDER, ELBOW, WRIST, WRIST_ROT, GRIPPER in that order; all six
calls are made; the result is `true` exactly when every one of the six calls
returned `true`; and each of the six results is the one the call would give on
the initial state (the joints do not interact). -/
theorem C4_setAll_applies_six_in_order (st : Braccio) (b s e w w_r g : Int) :
    ((setAllAbsolute st b s e w w_r g).1
        = (applyInOrder setOneAbsolute st (sixJoints b s e w w_r g)).1
      ∧ (applyInOrder setOneAbsolute st (sixJoints b s e w w_r g)).2.length = 6
      ∧ ((setAllAbsolute st b s e w w_r g).2 = true ↔
          ∀ r ∈ (applyInOrder setOneAbsolute st (sixJoints b s e w w_r g)).2, r = true)
      ∧ (applyInOrder setOneAbsolute st (sixJoints b s e w w_r g)).2
          = [(setOneAbsolute st BASE_ROT b).2, (setOneAbsolute st SHOULDER s).2,
              (setOneAbsolute st ELBOW e).2, (setOneAbsolute st WRIST w).2,
              (setOneAbsolute st WRIST_ROT w_r).2, (setOneAbsolute st GRIPPER g).2])
    ∧ ((setAllRelative st b s e w w_r g).1
        = (applyInOrder setOneRelative st (sixJoints b s e w w_r g)).1
      ∧ (applyInOrder setOneRelative st (sixJoints b s e w w_r g)).2.length = 6
      ∧ ((setAllRelative st b s e w w_r g).2 = true ↔
          ∀ r ∈ (applyInOrder setOneRelative st (sixJoints b s e w w_r g)).2, r = true)
      ∧ (applyInOrder setOneRelative st (sixJoints b s e w w_r g)).2
          = [(setOneRelative st BASE_ROT b).2, (setOneRelative st SHOULDER s).2,
              (setOneRelative st ELBOW e).2, (setOneRelative st WRIST w).2,
              (setOneRelative st WRIST_ROT w_r).2, (setOneRelative st GRIPPER g).2]) := by
  refine ⟨⟨rfl, rfl, ?_, ?_⟩, ⟨rfl, rfl, ?_, ?_⟩⟩
  · simp only [setAllAbsolute, applyInOrder, sixJoints, List.mem_cons, List.mem_nil_iff,
      or_false, forall_eq_or_imp, forall_eq, Bool.true_and, Bool.and_eq_true]
    tauto
  · simp [applyInOrder, sixJoints, setOneAbsolute]
  · simp only [setAllRelative, applyInOrder, sixJoints, List.mem_cons, List.mem_nil_iff,
      or_false, forall_eq_or_imp, forall_eq, Bool.true_and, Bool.and_eq_true]
    tauto
  · simp [applyInOrder, sixJoints, setOneRelative, Function.update_apply, BASE_ROT, SHOULDER,
      ELBOW, WRIST, WRIST_ROT, GRIPPER]

/-! ## The tick: `_setServo`, `_moveServo`, `update` -/

theorem _setServo_eq (st : Braccio) (joint : Fin 7) (hj : joint ≠ 0) (value : Int) :
    _setServo st joint value false
      = { st with
          currentJointPositions := Function.update st.currentJointPositions joint value
          _pwm := st._pwm ++ [(jointPin joint, map value 0 180 0 4096)] } := by
  fin_cases joint
  · exact absurd rfl hj
  all_goals rfl

theorem _moveServo_eq (st : Braccio) (joint : Fin 7) (hj : joint ≠ 0)
    (h : st.currentJointPositions joint ≠ st.targetJointPositions joint) :
    _moveServo st joint
      = { st with
          currentJointPositions := Function.update st.currentJointPositions joint
            (stepPos (st.targetJointPositions joint) (st._jointDelta joint)
              (st.currentJointPositions joint))
          _pwm := st._pwm ++ [(jointPin joint,
            map (stepPos (st.targetJointPositions joint) (st._jointDelta joint)
              (st.currentJointPositions joint)) 0 180 0 4096)] } := by
  simp only [_moveServo, stepPos, if_pos h]
  exact _setServo_eq st joint hj _

theorem _moveServo_idle (st : Braccio) (joint : Fin 7)
    (h : st.currentJointPositions joint = st.targetJointPositions joint) :
    _moveServo st joint = st := by
  simp [_moveServo, h]

theorem _setServo_zero (st : Braccio) (value : Int) (updateTarget : Bool) :
    _setServo st 0 value updateTarget = st := rfl

/-- The position array after `_moveServo(joint)` for one of the six joints: only
the entry of `joint` can change, to `stepPos`. -/
theorem _moveServo_current (st : Braccio) (joint : Fin 7) (hj : joint ≠ 0) :
    (_moveServo st joint).currentJointPositions
      = Function.update st.currentJointPositions joint
          (stepPos (st.targetJointPositions joint) (st._jointDelta joint)
            (st.currentJointPositions joint)) := by
  by_cases h : st.currentJointPositions joint = st.targetJointPositions joint
  · rw [_moveServo_idle st joint h]
    simp [stepPos, h]
  · rw [_moveServo_eq st joint hj h]

theorem _moveServo_frame (st : Braccio) (joint : Fin 7) :
    (_moveServo st joint).targetJointPositions = st.targetJointPositions
    ∧ (_moveServo st joint)._jointMax = st._jointMax
    ∧ (_moveServo st joint)._jointMin = st._jointMin
    ∧ (_moveServo st joint)._jointCenter = st._jointCenter
    ∧ (_moveServo st joint)._jointDelta = st._jointDelta := by
  by_cases h : st.currentJointPositions joint = st.targetJointPositions joint
  · rw [_moveServo_idle st joint h]
    exact ⟨rfl, rfl, rfl, rfl, rfl⟩
  · by_cases hj : joint = 0
    · subst hj
      simp only [_moveServo, _setServo_zero, ite_self, and_self]
    · rw [_moveServo_eq st joint hj h]
      exact ⟨rfl, rfl, rfl, rfl, rfl⟩

theorem _moveServo_pwm (st : Braccio) (joint : Fin 7) (hj : joint ≠ 0) :
    (_moveServo st joint)._pwm = st._pwm ++ jointWrite st joint := by
  by_cases h : st.currentJointPositions joint = st.targetJointPositions joint
  · rw [_moveServo_idle st joint h]
    simp [jointWrite, h]
  · rw [_moveServo_eq st joint hj h]
    simp [jointWrite, h]

/-- What `update` leaves untouched: targets, limits, centers and steps. -/
theorem update_frame (st : Braccio) :
    (update st).targetJointPositions = st.targetJointPositions
    ∧ (update st)._jointMax = st._jointMax
    ∧ (update st)._jointMin = st._jointMin
    ∧ (update st)._jointCenter = st._jointCenter
    ∧ (update st)._jointDelta = st._jointDelta := by
  simp only [update]
  refine ⟨?_, ?_, ?_, ?_, ?_⟩
  · simp only [(_moveServo_frame _ _).1]
  · simp only [(_moveServo_frame _ _).2.1]
  · simp only [(_moveServo_frame _ _).2.2.1]
  · simp only [(_moveServo_frame _ _).2.2.2.1]
  · simp only [(_moveServo_frame _ _).2.2.2.2]

/-- One `update` moves each of the six joints by `stepPos`. -/
theorem update_current (st : Braccio) (joint : Fin 7) (hj : joint ≠ 0) :
    (update st).currentJointPositions joint
      = stepPos (st.targetJointPositions joint) (st._jointDelta joint)
          (st.currentJointPositions joint) := by
  have h1 : BASE_ROT ≠ 0 := by decide
  have h2 : SHOULDER ≠ 0 := by decide
  have h3 : ELBOW ≠ 0 := by decide
  have h4 : WRIST ≠ 0 := by decide
  have h5 : WRIST_ROT ≠ 0 := by decide
  have h6 : GRIPPER ≠ 0 := by decide
  simp only [update, _moveServo_current _ _ h1, _moveServo_current _ _ h2,
    _moveServo_current _ _ h3, _moveServo_current _ _ h4, _moveServo_current _ _ h5,
    _moveServo_current _ _ h6, (_moveServo_frame _ _).1, (_moveServo_frame _ _).2.2.2.2]
  fin_cases joint
  · exact absurd rfl hj
  all_goals simp [Function.update_apply, BASE_ROT, SHOULDER, ELBOW, WRIST, WRIST_ROT, GRIPPER]

/-- The driver calls of one `update`: those of `tickWrites`, appended to the log. -/
theorem update_pwm (st : Braccio) : (update st)._pwm = st._pwm ++ tickWrites st := by
  have h1 : BASE_ROT ≠ 0 := by decide
  have h2 : SHOULDER ≠ 0 := by decide
  have h3 : ELBOW ≠ 0 := by decide
  have h4 : WRIST ≠ 0 := by decide
  have h5 : WRIST_ROT ≠ 0 := by decide
  have h6 : GRIPPER ≠ 0 := by decide
  simp only [update, tickWrites, _moveServo_pwm _ _ h1, _moveServo_pwm _ _ h2,
    _moveServo_pwm _ _ h3, _moveServo_pwm _ _ h4, _moveServo_pwm _ _ h5,
    _moveServo_pwm _ _ h6, jointWrite, _moveServo_current _ _ h1, _moveServo_current _ _ h2,
    _moveServo_current _ _ h3, _moveServo_current _ _ h4, _moveServo_current _ _ h5,
    (_moveServo_frame _ _).1, (_moveServo_frame _ _).2.2.2.2, List.append_assoc]
  simp [Function.update_apply, BASE_ROT, SHOULDER, ELBOW, WRIST, WRIST_ROT, GRIPPER]

theorem update_iterate_frame (st : Braccio) (k : ℕ) :
    (update^[k] st).targetJointPositions = st.targetJointPositions
    ∧ (update^[k] st)._jointMax = st._jointMax
    ∧ (update^[k] st)._jointMin = st._jointMin
    ∧ (update^[k] st)._jointCenter = st._jointCenter
    ∧ (update^[k] st)._jointDelta = st._jointDelta := by
  induction k with
  | zero => exact ⟨rfl, rfl, rfl, rfl, rfl⟩
  | succ n ih =>
    rw [Function.iterate_succ_apply']
    obtain ⟨h1, h2, h3, h4, h5⟩ := update_frame (update^[n] st)
    obtain ⟨i1, i2, i3, i4, i5⟩ := ih
    exact ⟨h1.trans i1, h2.trans i2, h3.trans i3, h4.trans i4, h5.trans i5⟩

/-- After `k` ticks a joint's position is the `k`-fold `stepPos` of its initial
position, for the joint's (unchanged) target and step. -/
theorem update_iterate_current (st : Braccio) (joint : Fin 7) (hj : joint ≠ 0) (k : ℕ) :
    (update^[k] st).currentJointPositions joint
      = (stepPos (st.targetJointPositions joint) (st._jointDelta joint))^[k]
          (st.currentJointPositions joint) := by
  induction k with
  | zero => rfl
  | succ n ih =>
    rw [Function.iterate_succ_apply', Function.iterate_succ_apply', update_current _ _ hj, ih,
      (update_iterate_frame st n).1, (update_iterate_frame st n).2.2.2.2]

/-- When no tick of the run overflows, the position of a joint after `k` ticks
is the `k`-fold tick of the specification. -/
theorem update_iterate_current_ideal (st : Braccio) (joint : Fin 7) (hj : joint ≠ 0)
    (hs : 1 ≤ st._jointDelta joint)
    (hno : ∀ j : ℕ, (j : Int) ≤ ticksToTarget (st.currentJointPositions joint)
        (st.targetJointPositions joint) (st._jointDelta joint) →
      inIntRange (st.currentJointPositions joint
        + Int.sign (st.targetJointPositions joint - st.currentJointPositions joint) * j
          * st._jointDelta joint))
    (k : ℕ) :
    (update^[k] st).currentJointPositions joint
      = (idealStep (st.targetJointPositions joint) (st._jointDelta joint))^[k]
          (st.currentJointPositions joint) := by
  rw [update_iterate_current st joint hj k]
  exact stepPos_iterate_eq_idealStep_of_noOverflow _ _ _ hs hno k

/-- A joint whose step `s ≥ 1` does not divide its distance to the target, and
whose run does not overflow, never has its position equal to the target,
however many ticks run. -/
theorem update_iterate_ne_target (st : Braccio) (joint : Fin 7) (hj : joint ≠ 0)
    (hs : 1 ≤ st._jointDelta joint)
    (hno : ∀ j : ℕ, (j : Int) ≤ ticksToTarget (st.currentJointPositions joint)
        (st.targetJointPositions joint) (st._jointDelta joint) →
      inIntRange (st.currentJointPositions joint
        + Int.sign (st.targetJointPositions joint - st.currentJointPositions joint) * j
          * st._jointDelta joint))
    (h : ¬ st._jointDelta joint ∣ st.targetJointPositions joint - st.currentJointPositions joint)
    (k : ℕ) :
    (update^[k] st).currentJointPositions joint ≠ (update^[k] st).targetJointPositions joint := by
  rw [update_iterate_current_ideal st joint hj hs hno k, (update_iterate_frame st k).1]
  exact idealStep_iterate_ne _ _ _ h k

/-- Over unbounded integers: up to tick `n = ceil(|t - c| / s)` the position is
`c + sign(t - c) * k * s`, before tick `n` it is short of the target, at tick `n`
it has reached or passed it. -/
theorem idealStep_iterate_ceil (t s c : Int) (hs : 1 ≤ s) (hne : c ≠ t) (k : ℕ)
    (hk : (k : Int) ≤ ticksToTarget c t s) :
    (idealStep t s)^[k] c = c + Int.sign (t - c) * k * s
    ∧ ((k : Int) < ticksToTarget c t s →
        (c < t → (idealStep t s)^[k] c < t) ∧ (t < c → t < (idealStep t s)^[k] c))
    ∧ ((k : Int) = ticksToTarget c t s →
        (c < t → t ≤ (idealStep t s)^[k] c) ∧ (t < c → (idealStep t s)^[k] c ≤ t)) := by
  have hlt := lt_ticksToTarget_iff c t s hs k
  have hk1 : ((k : Int) - 1) * s < |t - c| := by
    rw [← lt_ticksToTarget_iff c t s hs]; omega
  have hk2 : (k : Int) * s < |t - c| + s := by linarith [sub_mul (k : Int) 1 s]
  rcases lt_or_gt_of_ne hne with hc | hc
  · have habs : |t - c| = t - c := abs_of_pos (by omega)
    have hsign : Int.sign (t - c) = 1 := Int.sign_eq_one_of_pos (by omega)
    rw [habs] at hlt hk2
    rw [idealStep_iterate_up t s c (by omega) k hk2, hsign, one_mul]
    refine ⟨rfl, fun h => ⟨fun _ => ?_, fun h' => absurd h' (by omega)⟩,
      fun h => ⟨fun _ => ?_, fun h' => absurd h' (by omega)⟩⟩
    · have := hlt.mp h
      omega
    · have : ¬ (k : Int) * s < t - c := fun h' => by have := hlt.mpr h'; omega
      omega
  · have habs : |t - c| = c - t := by rw [abs_of_neg (by omega)]; ring
    have hsign : Int.sign (t - c) = -1 := Int.sign_eq_neg_one_of_neg (by omega)
    rw [habs] at hlt hk2
    rw [idealStep_iterate_down t s c (by omega) k hk2, hsign]
    refine ⟨by ring, fun h => ⟨fun h' => absurd h' (by omega), fun _ => ?_⟩,
      fun h => ⟨fun h' => absurd h' (by omega), fun _ => ?_⟩⟩
    · have := hlt.mp h
      omega
    · have : ¬ (k : Int) * s < c - t := fun h' => by have := hlt.mpr h'; omega
      omega

/-- The positions `0, 7, ..., 105` of the run of `base7` are `int` values. -/
theorem base7_inIntRange (j : ℕ) (hj : j ≤ 15) :
    inIntRange (base7.currentJointPositions BASE_ROT
      + Int.sign (base7.targetJointPositions BASE_ROT - base7.currentJointPositions BASE_ROT) * j
        * base7._jointDelta BASE_ROT) := by
  have hc : base7.currentJointPositions BASE_ROT = 0 := by decide
  have ht : base7.targetJointPositions BASE_ROT = 100 := by decide
  have hd : base7._jointDelta BASE_ROT = 7 := by decide
  have hsg : Int.sign (100 - 0) = 1 := by decide
  rw [hc, ht, hd, hsg]
  unfold inIntRange
  omega

/-- The run of `base7` does not overflow. -/
theorem base7_noOverflow (j : ℕ)
    (hj : (j : Int) ≤ ticksToTarget (base7.currentJointPositions BASE_ROT)
      (base7.targetJointPositions BASE_ROT) (base7._jointDelta BASE_ROT)) :
    inIntRange (base7.currentJointPositions BASE_ROT
      + Int.sign (base7.targetJointPositions BASE_ROT - base7.currentJointPositions BASE_ROT) * j
        * base7._jointDelta BASE_ROT) := by
  have hn : ticksToTarget (base7.currentJointPositions BASE_ROT)
      (base7.targetJointPositions BASE_ROT) (base7._jointDelta BASE_ROT) = 15 := by decide
  rw [hn] at hj
  exact base7_inIntRange j (by omega)

/-- C5, as stated, fails: with the base at 100, target 165 and step 2147483647
(`baseMax`) the tick count is `n = 1`, and after one `update` the base stands at
-2147483549, which is neither `100 + 1 * 2147483647` nor at or beyond the
target: the sum overflows the `int` range and wraps around. -/
theorem C5_overflowing_step_misses_target :
    1 ≤ baseMax._jointDelta BASE_ROT
    ∧ baseMax.currentJointPositions BASE_ROT = 100
    ∧ baseMax.targetJointPositions BASE_ROT = 165
    ∧ ticksToTarget 100 165 (baseMax._jointDelta BASE_ROT) = 1
    ∧ (update^[1] baseMax).currentJointPositions BASE_ROT = -2147483549
    ∧ (update^[1] baseMax).currentJointPositions BASE_ROT
        ≠ 100 + Int.sign (165 - 100) * (1 : ℕ) * baseMax._jointDelta BASE_ROT
    ∧ ¬ (165 ≤ (update^[1] baseMax).currentJointPositions BASE_ROT) := by
  decide

/-- C5, amended: for one of the six joints with step `s ≥ 1`, position `c` and
target `t ≠ c`, let `n = ceil(|t - c| / s)` and let `k ≤ n` be such that none of
the positions `c + sign(t - c) * j * s`, `j ≤ k`, leaves the `int` range (no
overflow up to tick `k`). After `k` calls of `update` the position is
`c + sign(t - c) * k * s`; for `k < n` it is still strictly on the starting
side of the target; after exactly `n` calls it has reached or passed the
target. -/
theorem C5_update_reaches_target_after_ceil_ticks (st : Braccio) (joint : Fin 7)
    (hj : joint ≠ 0) (hs : 1 ≤ st._jointDelta joint)
    (hne : st.currentJointPositions joint ≠ st.targetJointPositions joint) (k : ℕ)
    (hk : (k : Int) ≤ ticksToTarget (st.currentJointPositions joint)
      (st.targetJointPositions joint) (st._jointDelta joint))
    (hno : ∀ j : ℕ, j ≤ k →
      inIntRange (st.currentJointPositions joint
        + Int.sign (st.targetJointPositions joint - st.currentJointPositions joint) * j
          * st._jointDelta joint)) :
    (update^[k] st).currentJointPositions joint
        = st.currentJointPositions joint
          + Int.sign (st.targetJointPositions joint - st.currentJointPositions joint) * k
            * st._jointDelta joint
    ∧ ((k : Int) < ticksToTarget (st.currentJointPositions joint)
          (st.targetJointPositions joint) (st._jointDelta joint) →
        (st.currentJointPositions joint < st.targetJointPositions joint →
          (update^[k] st).currentJointPositions joint < st.targetJointPositions joint)
        ∧ (st.targetJointPositions joint < st.currentJointPositions joint →
          st.targetJointPositions joint < (update^[k] st).currentJointPositions joint))
    ∧ ((k : Int) = ticksToTarget (st.currentJointPositions joint)
          (st.targetJointPositions joint) (st._jointDelta joint) →
        (st.currentJointPositions joint < st.targetJointPositions joint →
          st.targetJointPositions joint ≤ (update^[k] st).currentJointPositions joint)
        ∧ (st.targetJointPositions joint < st.currentJointPositions joint →
          (update^[k] st).currentJointPositions joint ≤ st.targetJointPositions joint)) := by
  rw [update_iterate_current st joint hj k]
  generalize st.currentJointPositions joint = c at *
  generalize st.targetJointPositions joint = t at *
  generalize st._jointDelta joint = s at *
  have hw : (stepPos t s)^[k] c = (idealStep t s)^[k] c := by
    apply stepPos_iterate_eq_idealStep
    intro j hjk
    rw [(idealStep_iterate_ceil t s c hs hne j (by omega)).1]
    exact hno j hjk
  rw [hw]
  exact idealStep_iterate_ceil t s c hs hne k hk

/-- Witness of C5, amended (`c = 0`, `t = 100`, `s = 7`, so `n = 15`): the base is
below 100 after each of the ticks 1..14 and at 105 after the 15th. -/
theorem C5_update_reaches_target_after_ceil_ticks_witness :
    (∀ k ∈ List.range 15, (update^[k] base7).currentJointPositions BASE_ROT < 100)
    ∧ (update^[15] base7).currentJointPositions BASE_ROT = 0 + Int.sign (100 - 0) * (15 : ℕ) * 7
    ∧ (update^[15] base7).currentJointPositions BASE_ROT = 105 :=
  ⟨by set_option maxRecDepth 8000 in decide,
    (C5_update_reaches_target_after_ceil_ticks base7 BASE_ROT (by decide) (by decide)
      (by decide) 15 (by decide) base7_inIntRange).1,
    by set_option maxRecDepth 8000 in decide⟩

/-- C6 (code defect): with the base at 0, target 100 and step 7 (100 is not a
multiple of 7) the base passes the target on tick 15 (105), comes back to 98 on
tick 16, returns to 105 on tick 17, and after no number of `update` calls is
its position equal to its target: no later tick detects convergence. -/
theorem C6_update_never_halts_after_overshoot :
    base7._jointDelta BASE_ROT = 7
    ∧ base7.currentJointPositions BASE_ROT = 0
    ∧ base7.targetJointPositions BASE_ROT = 100
    ∧ (update^[15] base7).currentJointPositions BASE_ROT = 105
    ∧ (update^[16] base7).currentJointPositions BASE_ROT = 98
    ∧ (update^[17] base7).currentJointPositions BASE_ROT = 105
    ∧ ∀ k : ℕ, (update^[k] base7).currentJointPositions BASE_ROT
        ≠ (update^[k] base7).targetJointPositions BASE_ROT :=
  ⟨by decide, by decide, by decide,
    by set_option maxRecDepth 8000 in decide,
    by set_option maxRecDepth 8000 in decide,
    by set_option maxRecDepth 8000 in decide,
    update_iterate_ne_target base7 BASE_ROT (by decide) (by decide) base7_noOverflow
      (by decide)⟩

theorem setOneAbsolute_limitInvariant (st : Braccio) (h : limitInvariant st) (joint : Fin 7)
    (v : Int) : limitInvariant (setOneAbsolute st joint v).1 := by
  intro j hj
  obtain ⟨h1, h2, h3, h4⟩ := h j hj
  simp only [setOneAbsolute, Function.update_apply]
  refine ⟨h1, h2, ?_⟩
  split_ifs with hjj
  · subst hjj
    exact constrain_mem v _ _ (h1.trans h2)
  · exact ⟨h3, h4⟩

theorem setOneRelative_limitInvariant (st : Braccio) (h : limitInvariant st) (joint : Fin 7)
    (d : Int) : limitInvariant (setOneRelative st joint d).1 := by
  intro j hj
  obtain ⟨h1, h2, h3, h4⟩ := h j hj
  simp only [setOneRelative, Function.update_apply]
  refine ⟨h1, h2, ?_⟩
  split_ifs with hjj
  · subst hjj
    exact constrain_mem _ _ _ (h1.trans h2)
  · exact ⟨h3, h4⟩

theorem setAllAbsolute_limitInvariant (st : Braccio) (h : limitInvariant st)
    (b s e w w_r g : Int) : limitInvariant (setAllAbsolute st b s e w w_r g).1 := by
  simp only [setAllAbsolute]
  repeat apply setOneAbsolute_limitInvariant
  exact h

theorem setAllRelative_limitInvariant (st : Braccio) (h : limitInvariant st)
    (b s e w w_r g : Int) : limitInvariant (setAllRelative st b s e w w_r g).1 := by
  simp only [setAllRelative]
  repeat apply setOneRelative_limitInvariant
  exact h

/-- What `update` keeps of the limit invariant: every target stays within its
limits, and a current position leaves them by at most `stepSize - 1`, for a
joint whose limits widened by the step are `int` values (no overflow). -/
theorem update_limit_slack (st : Braccio) (h : limitInvariant st) (hs : stepsPositive st)
    (joint : Fin 7) (hj : joint ≠ 0)
    (hr : inIntRange (st._jointMin joint - st._jointDelta joint)
      ∧ inIntRange (st._jointMax joint + st._jointDelta joint)) :
    (update st)._jointMin joint - (st._jointDelta joint - 1)
        ≤ (update st).currentJointPositions joint
    ∧ (update st).currentJointPositions joint
        ≤ (update st)._jointMax joint + (st._jointDelta joint - 1)
    ∧ (update st)._jointMin joint ≤ (update st).targetJointPositions joint
    ∧ (update st).targetJointPositions joint ≤ (update st)._jointMax joint := by
  obtain ⟨h1, h2, h3, h4⟩ := h joint hj
  have hd := hs joint hj
  have hin : inIntRange (idealStep (st.targetJointPositions joint) (st._jointDelta joint)
      (st.currentJointPositions joint)) := by
    unfold inIntRange at hr ⊢
    unfold idealStep
    split_ifs <;> omega
  rw [update_current st joint hj, (update_frame st).1, (update_frame st).2.1,
    (update_frame st).2.2.1, stepPos_eq_idealStep _ _ _ hin]
  unfold idealStep
  split_ifs <;> omega

/-- C8 (code defect): the state `nearLimit` satisfies the limit invariant and
has every step at least 1 (base at 160, target 165, limit 165, step 7), yet
after one `update` the base stands at 167, above its maximum 165: the limit
invariant does not survive the tick. -/
theorem C8_update_breaks_limit_invariant :
    limitInvariant nearLimit
    ∧ stepsPositive nearLimit
    ∧ nearLimit.currentJointPositions BASE_ROT = 160
    ∧ nearLimit.targetJointPositions BASE_ROT = 165
    ∧ nearLimit._jointDelta BASE_ROT = 7
    ∧ (update nearLimit)._jointMax BASE_ROT = 165
    ∧ (update nearLimit).currentJointPositions BASE_ROT = 167
    ∧ ¬ limitInvariant (update nearLimit) := by
  refine ⟨by decide, by decide, by decide, by decide, by decide, by decide, by decide, ?_⟩
  intro h
  have := (h BASE_ROT (by decide)).2.1
  revert this
  decide

/-- C9: `update` leaves untouched every joint that is at its target: its
current and target positions are unchanged and none of the driver calls of the
tick addresses its pin. When all six joints are at their targets, `update`
returns the state unchanged, driver log included. -/
theorem C9_update_idle_when_converged (st : Braccio) :
    (∀ joint : Fin 7, st.currentJointPositions joint = st.targetJointPositions joint →
      (update st).currentJointPositions joint = st.currentJointPositions joint
      ∧ (update st).targetJointPositions joint = st.targetJointPositions joint
      ∧ ∃ ws, (update st)._pwm = st._pwm ++ ws ∧ ∀ w ∈ ws, w.1 ≠ jointPin joint)
    ∧ ((∀ joint : Fin 7, joint ≠ 0 →
          st.currentJointPositions joint = st.targetJointPositions joint) →
        update st = st) := by
  constructor
  · intro joint hc
    refine ⟨?_, by rw [(update_frame st).1], tickWrites st, update_pwm st, ?_⟩
    · by_cases hj : joint = 0
      · subst hj
        have h1 : BASE_ROT ≠ 0 := by decide
        have h2 : SHOULDER ≠ 0 := by decide
        have h3 : ELBOW ≠ 0 := by decide
        have h4 : WRIST ≠ 0 := by decide
        have h5 : WRIST_ROT ≠ 0 := by decide
        have h6 : GRIPPER ≠ 0 := by decide
        simp only [update, _moveServo_current _ _ h1, _moveServo_current _ _ h2,
          _moveServo_current _ _ h3, _moveServo_current _ _ h4, _moveServo_current _ _ h5,
          _moveServo_current _ _ h6]
        simp [Function.update_apply, BASE_ROT, SHOULDER, ELBOW, WRIST, WRIST_ROT, GRIPPER]
      · rw [update_current st joint hj]
        simp [stepPos, hc]
    · intro w hw
      simp only [tickWrites, jointWrite, List.mem_append] at hw
      fin_cases joint <;>
        simp_all [jointPin, BASE_ROT, SHOULDER, ELBOW, WRIST, WRIST_ROT, GRIPPER,
          _BASE_ROT_PIN, _SHOULDER_PIN, _ELBOW_PIN, _WRIST_PIN, _WRIST_ROT_PIN, _GRIPPER_PIN] <;>
        aesop
  · intro h
    simp [update, _moveServo_idle, h, BASE_ROT, SHOULDER, ELBOW, WRIST, WRIST_ROT, GRIPPER]

/-- Witness of C9: in `base7` the shoulder is at its target while the base is
not, and one `update` moves the base only; in the power-on state all joints
are at their targets and `update` changes nothing. -/
theorem C9_update_idle_when_converged_witness :
    ((update base7).currentJointPositions SHOULDER = base7.currentJointPositions SHOULDER
      ∧ (update base7).currentJointPositions BASE_ROT = 7
      ∧ (update base7)._pwm = [(1, 159)])
    ∧ update powerOn = powerOn :=
  ⟨⟨((C9_update_idle_when_converged base7).1 SHOULDER (by decide)).1, by decide, by decide⟩,
    (C9_update_idle_when_converged powerOn).2 (by decide)⟩

/-- C10 (code defect): in the freshly constructed controller the step of the
gripper, looked up by its joint identifier 6, is 0, not the documented default
of 1: the six listed defaults occupy indices 0 to 5 of the seven-element table
and index 6 is zero-filled. The joints 1 to 5 have step 1. -/
theorem C10_default_gripper_step_is_zero (cur tgt : Fin 7 → Int) :
    (ctor cur tgt)._jointDelta GRIPPER = 0
    ∧ ¬ 1 ≤ (ctor cur tgt)._jointDelta GRIPPER
    ∧ (ctor cur tgt)._jointDelta BASE_ROT = 1
    ∧ (ctor cur tgt)._jointDelta SHOULDER = 1
    ∧ (ctor cur tgt)._jointDelta ELBOW = 1
    ∧ (ctor cur tgt)._jointDelta WRIST = 1
    ∧ (ctor cur tgt)._jointDelta WRIST_ROT = 1 := by
  simp only [ctor]
  decide

/-! ## Construction defaults, immediate positioning and calibration -/

/-- C11 (code defect): in the freshly constructed controller the minimum of the
gripper, looked up by its joint identifier 6, is 0 and not 10, and so is its
maximum; `setOneAbsolute(GRIPPER, 0)` therefore stores 0, not 10, as the gripper
target. The calibrated gripper range `[10, 73]` sits at index 5, the identifier
of the wrist rotation joint. -/
theorem C11_default_gripper_min_is_zero (cur tgt : Fin 7 → Int) :
    (ctor cur tgt)._jointMin GRIPPER = 0
    ∧ (ctor cur tgt)._jointMax GRIPPER = 0
    ∧ ¬ (0 : Int) < (ctor cur tgt)._jointMin GRIPPER
    ∧ (setOneAbsolute (ctor cur tgt) GRIPPER 0).1.targetJointPositions GRIPPER = 0
    ∧ (ctor cur tgt)._jointMin WRIST_ROT = 10
    ∧ (ctor cur tgt)._jointMax WRIST_ROT = 73 := by
  simp only [setOneAbsolute, ctor, Function.update_same]
  decide

/-- The effect of `_setServo(joint, value, true)` for one of the six joints: one
driver call on the joint's pin, and the joint's current and target positions
both set to `value`. -/
theorem _setServo_true_eq (st : Braccio) (joint : Fin 7) (hj : joint ≠ 0) (value : Int) :
    _setServo st joint value true
      = { st with
          currentJointPositions := Function.update st.currentJointPositions joint value
          targetJointPositions := Function.update st.targetJointPositions joint value
          _pwm := st._pwm ++ [(jointPin joint, map value 0 180 0 4096)] } := by
  fin_cases joint
  · exact absurd rfl hj
  all_goals rfl

/-- The state after `setAllNow`, field by field. -/
theorem setAllNow_eq (st : Braccio) (b s e w w_r g : Int) :
    setAllNow st b s e w w_r g
      = { st with
          currentJointPositions := fun j =>
            if j = GRIPPER then g else if j = WRIST_ROT then w_r else if j = WRIST then w
            else if j = ELBOW then e else if j = SHOULDER then s else if j = BASE_ROT then b
            else st.currentJointPositions j
          targetJointPositions := fun j =>
            if j = GRIPPER then g else if j = WRIST_ROT then w_r else if j = WRIST then w
            else if j = ELBOW then e else if j = SHOULDER then s else if j = BASE_ROT then b
            else st.targetJointPositions j
          _pwm := st._pwm ++ [(_BASE_ROT_PIN, map b 0 180 0 4096),
            (_SHOULDER_PIN, map s 0 180 0 4096), (_ELBOW_PIN, map e 0 180 0 4096),
            (_WRIST_PIN, map w 0 180 0 4096), (_WRIST_ROT_PIN, map w_r 0 180 0 4096),
            (_GRIPPER_PIN, map g 0 180 0 4096)] } := by
  have h1 : BASE_ROT ≠ 0 := by decide
  have h2 : SHOULDER ≠ 0 := by decide
  have h3 : ELBOW ≠ 0 := by decide
  have h4 : WRIST ≠ 0 := by decide
  have h5 : WRIST_ROT ≠ 0 := by decide
  have h6 : GRIPPER ≠ 0 := by decide
  simp only [setAllNow, _setServo_true_eq _ _ h1, _setServo_true_eq _ _ h2,
    _setServo_true_eq _ _ h3, _setServo_true_eq _ _ h4, _setServo_true_eq _ _ h5,
    _setServo_true_eq _ _ h6, List.append_assoc, List.singleton_append]
  congr 1 <;> first | rfl | (funext j; simp only [Function.update_apply])

/-- C12: `setAllNow(b, s, e, w, w_r, g)` sets both the current and the target
position of BASE_ROT, SHOULDER, ELBOW, WRIST, WRIST_ROT, GRIPPER to exactly
`b, s, e, w, w_r, g`, whatever the limits are; it leaves limits, centers and
steps unchanged; and it issues exactly one driver call per joint, in that
order. -/
theorem C12_setAllNow_sets_exactly (st : Braccio) (b s e w w_r g : Int) :
    ((setAllNow st b s e w w_r g).currentJointPositions BASE_ROT = b
      ∧ (setAllNow st b s e w w_r g).currentJointPositions SHOULDER = s
      ∧ (setAllNow st b s e w w_r g).currentJointPositions ELBOW = e
      ∧ (setAllNow st b s e w w_r g).currentJointPositions WRIST = w
      ∧ (setAllNow st b s e w w_r g).currentJointPositions WRIST_ROT = w_r
      ∧ (setAllNow st b s e w w_r g).currentJointPositions GRIPPER = g)
    ∧ ((setAllNow st b s e w w_r g).targetJointPositions BASE_ROT = b
      ∧ (setAllNow st b s e w w_r g).targetJointPositions SHOULDER = s
      ∧ (setAllNow st b s e w w_r g).targetJointPositions ELBOW = e
      ∧ (setAllNow st b s e w w_r g).targetJointPositions WRIST = w
      ∧ (setAllNow st b s e w w_r g).targetJointPositions WRIST_ROT = w_r
      ∧ (setAllNow st b s e w w_r g).targetJointPositions GRIPPER = g)
    ∧ ((setAllNow st b s e w w_r g)._jointMax = st._jointMax
      ∧ (setAllNow st b s e w w_r g)._jointMin = st._jointMin
      ∧ (setAllNow st b s e w w_r g)._jointCenter = st._jointCenter
      ∧ (setAllNow st b s e w w_r g)._jointDelta = st._jointDelta)
    ∧ (setAllNow st b s e w w_r g)._pwm
        = st._pwm ++ [(_BASE_ROT_PIN, map b 0 180 0 4096), (_SHOULDER_PIN, map s 0 180 0 4096),
            (_ELBOW_PIN, map e 0 180 0 4096), (_WRIST_PIN, map w 0 180 0 4096),
            (_WRIST_ROT_PIN, map w_r 0 180 0 4096), (_GRIPPER_PIN, map g 0 180 0 4096)] := by
  rw [setAllNow_eq]
  refine ⟨?_, ?_, ⟨rfl, rfl, rfl, rfl⟩, rfl⟩ <;>
    simp [BASE_ROT, SHOULDER, ELBOW, WRIST, WRIST_ROT, GRIPPER]

/-- Witness of C12: on the default tables the base minimum is 15, and
`setAllNow(0,0,0,0,0,0)` still makes the base current and target position 0;
the six driver calls carry the value 0. -/
theorem C12_setAllNow_sets_exactly_witness :
    (0 : Int) < powerOn._jointMin BASE_ROT
    ∧ (setAllNow powerOn 0 0 0 0 0 0).currentJointPositions BASE_ROT = 0
    ∧ (setAllNow powerOn 0 0 0 0 0 0).targetJointPositions BASE_ROT = 0
    ∧ (setAllNow powerOn 0 0 0 0 0 0)._pwm = [(1, 0), (2, 0), (3, 0), (4, 0), (5, 0), (6, 0)] :=
  ⟨by decide, (C12_setAllNow_sets_exactly powerOn 0 0 0 0 0 0).1.1,
    (C12_setAllNow_sets_exactly powerOn 0 0 0 0 0 0).2.1.1, by decide⟩

/-- C13: `begin(true)`, and `begin()` which is the same call, set the current
and the target position of each of the six joints to `getCenter(joint)` and
issue exactly one driver call per joint; the centers themselves are unchanged.
On a freshly constructed controller the base rotation ends at 90.
`begin(false)` returns the state unchanged, driver log included. -/
theorem C13_begin_moves_to_center (st : Braccio) :
    (∀ joint : Fin 7, joint ≠ 0 →
      (begin st true).currentJointPositions joint = getCenter st joint
      ∧ (begin st true).targetJointPositions joint = getCenter st joint
      ∧ getCenter (begin st true) joint = getCenter st joint)
    ∧ (begin st true)._pwm
        = st._pwm ++ [(_BASE_ROT_PIN, map (getCenter st BASE_ROT) 0 180 0 4096),
            (_SHOULDER_PIN, map (getCenter st SHOULDER) 0 180 0 4096),
            (_ELBOW_PIN, map (getCenter st ELBOW) 0 180 0 4096),
            (_WRIST_PIN, map (getCenter st WRIST) 0 180 0 4096),
            (_WRIST_ROT_PIN, map (getCenter st WRIST_ROT) 0 180 0 4096),
            (_GRIPPER_PIN, map (getCenter st GRIPPER) 0 180 0 4096)]
    ∧ begin0 st = begin st true
    ∧ begin st false = st
    ∧ (∀ cur tgt : Fin 7 → Int,
      (begin (ctor cur tgt) true).currentJointPositions BASE_ROT = 90
      ∧ (begin (ctor cur tgt) true).targetJointPositions BASE_ROT = 90) := by
  refine ⟨?_, ?_, rfl, rfl, ?_⟩
  · intro joint hj
    simp only [begin, _initializeServos, if_true, setAllNow_eq, getCenter]
    fin_cases joint
    · exact absurd rfl hj
    all_goals simp [BASE_ROT, SHOULDER, ELBOW, WRIST, WRIST_ROT, GRIPPER]
  · simp only [begin, _initializeServos, if_true, setAllNow_eq, getCenter]
  · intro cur tgt
    simp only [begin, _initializeServos, if_true, setAllNow_eq]
    simp [BASE_ROT, SHOULDER, ELBOW, WRIST, WRIST_ROT, GRIPPER, ctor, arrayInit]

/-- Witness of C13 on the power-on state: the shoulder goes to its center 90
and six driver calls are issued. -/
theorem C13_begin_moves_to_center_witness :
    (begin powerOn true).currentJointPositions SHOULDER = getCenter powerOn SHOULDER
    ∧ getCenter powerOn SHOULDER = 90
    ∧ (begin powerOn true)._pwm.length = 6
    ∧ (begin powerOn false)._pwm = [] :=
  ⟨((C13_begin_moves_to_center powerOn).1 SHOULDER (by decide)).1, by decide, by decide,
    by decide⟩

/-- C14: `setJointMax`, `setJointMin` and `setJointCenter` store the value
clamped to `[0, 180]` as the joint's maximum, minimum and center (which
`getCenter` then returns) and change nothing else. Consequently, for a joint
whose minimum is at most 180, `setJointMax(joint, 300)` stores 180 and a
following `setOneAbsolute(joint, 200)` stores the target 180. -/
theorem C14_calibration_clamps_to_global_range (st : Braccio) (joint : Fin 7) (value : Int) :
    (setJointMax st joint value
        = { st with _jointMax := Function.update st._jointMax joint (max 0 (min value 180)) }
      ∧ (setJointMax st joint value)._jointMax joint = max 0 (min value 180))
    ∧ (setJointMin st joint value
        = { st with _jointMin := Function.update st._jointMin joint (max 0 (min value 180)) }
      ∧ (setJointMin st joint value)._jointMin joint = max 0 (min value 180))
    ∧ (setJointCenter st joint value
        = { st with
            _jointCenter := Function.update st._jointCenter joint (max 0 (min value 180)) }
      ∧ getCenter (setJointCenter st joint value) joint = max 0 (min value 180))
    ∧ (st._jointMin joint ≤ 180 →
      (setJointMax st joint 300)._jointMax joint = 180
      ∧ (setOneAbsolute (setJointMax st joint 300) joint 200).1.targetJointPositions joint
          = 180) := by
  have hc : constrain value GLOBAL_MIN GLOBAL_MAX = max 0 (min value 180) :=
    constrain_eq_max_min value 0 180 (by decide)
  refine ⟨?_, ?_, ?_, fun h => ?_⟩
  · simp only [setJointMax, hc, Function.update_same, and_self]
  · simp only [setJointMin, hc, Function.update_same, and_self]
  · simp only [setJointCenter, getCenter, hc, Function.update_same, and_self]
  · have h300 : constrain 300 GLOBAL_MIN GLOBAL_MAX = 180 := by decide
    simp only [setJointMax, setOneAbsolute, h300, Function.update_same, true_and]
    unfold constrain
    split_ifs <;> omega

/-- Witness of C14 on the shoulder of the power-on state (minimum 0):
`setJointMax(SHOULDER, 300)` stores 180 and `setOneAbsolute(SHOULDER, 200)` then
stores the target 180; `setJointCenter(SHOULDER, -4)` stores 0. -/
theorem C14_calibration_clamps_to_global_range_witness :
    ((setJointMax powerOn SHOULDER 300)._jointMax SHOULDER = 180
      ∧ (setOneAbsolute (setJointMax powerOn SHOULDER 300) SHOULDER 200).1.targetJointPositions
          SHOULDER = 180)
    ∧ getCenter (setJointCenter powerOn SHOULDER (-4)) SHOULDER = 0 :=
  ⟨(C14_calibration_clamps_to_global_range powerOn SHOULDER 300).2.2.2 (by decide), by decide⟩

/-! ## The duty cycle sent to the driver -/

/-- C15, as stated, fails: `setAllNow(1, 180, 0, 0, 0, 0)` on the power-on state
writes 22 for the angle 1, where `round(1 * 4095 / 180)` is 23, and writes 4096
for the angle 180, where the formula gives 4095 and the driver's domain ends at
4095. -/
theorem C15_duty_is_not_rounded_4095_scale :
    (setAllNow powerOn 1 180 0 0 0 0)._pwm
        = [(_BASE_ROT_PIN, 22), (_SHOULDER_PIN, 4096), (_ELBOW_PIN, 0), (_WRIST_PIN, 0),
            (_WRIST_ROT_PIN, 0), (_GRIPPER_PIN, 0)]
    ∧ specDuty 1 = 23
    ∧ specDuty 180 = 4095
    ∧ ¬ (∀ w ∈ (setAllNow powerOn 1 180 0 0 0 0)._pwm, 0 ≤ w.2 ∧ w.2 ≤ 4095) := by
  decide

/-- C15, amended: for one of the six joints and an angle `a` in `[0, 179]`,
committing `a` to the actuator (`_setServo`, through which both `update` and
`setAllNow` write) issues exactly one driver call, on the joint's pin, with the
value `map(a, 0, 180, 0, 4096)`, which is the floor of `a * 4096 / 180`: it
lies in the driver's domain `[0, 4095]` and differs from
`round(a * 4095 / 180)` by at most 1. -/
theorem C15_duty_is_truncated_map (st : Braccio) (joint : Fin 7) (hj : joint ≠ 0) (a : Int)
    (updateTarget : Bool) (h0 : 0 ≤ a) (h1 : a ≤ 179) :
    (_setServo st joint a updateTarget)._pwm
        = st._pwm ++ [(jointPin joint, map a 0 180 0 4096)]
    ∧ map a 0 180 0 4096 = a * 4096 / 180
    ∧ 0 ≤ map a 0 180 0 4096
    ∧ map a 0 180 0 4096 ≤ 4095
    ∧ |map a 0 180 0 4096 - specDuty a| ≤ 1 := by
  have hm := map_angle_eq a h0
  refine ⟨?_, hm, ?_, ?_, ?_⟩
  · cases updateTarget
    · rw [_setServo_eq st joint hj]
    · rw [_setServo_true_eq st joint hj]
  · rw [hm]; omega
  · rw [hm]; omega
  · rw [hm, specDuty, abs_le]
    constructor <;> omega

/-- Witness of C15, amended: committing the angle 90 to the base of the
power-on state issues the driver call `(1, 2048)`. -/
theorem C15_duty_is_truncated_map_witness :
    (_setServo powerOn BASE_ROT 90 true)._pwm
        = powerOn._pwm ++ [(jointPin BASE_ROT, map 90 0 180 0 4096)]
    ∧ map 90 0 180 0 4096 = 2048
    ∧ specDuty 90 = 2048 :=
  ⟨(C15_duty_is_truncated_map powerOn BASE_ROT (by decide) 90 true (by decide) (by decide)).1,
    by decide, by decide⟩

/-! ## Frame conditions -/

/-- C16: (a) the four target-setting commands change nothing but target
positions, and only those of the addressed joints: current positions, limits,
centers, steps and the driver log are unchanged; (b) `update` leaves targets,
limits, centers and steps unchanged; (c) `setJointMax`, `setJointMin`,
`setJointCenter` and `setDelta` leave current positions, target positions and
the driver log unchanged. -/
theorem C16_frame_conditions (st : Braccio) (joint : Fin 7) (v b s e w w_r g : Int) :
    (((setOneAbsolute st joint v).1
          = { st with targetJointPositions :=
                (Function.update st.targetJointPositions joint
                  ((setOneAbsolute st joint v).1.targetJointPositions joint)) })
      ∧ ((setOneRelative st joint v).1
          = { st with targetJointPositions :=
                (Function.update st.targetJointPositions joint
                  ((setOneRelative st joint v).1.targetJointPositions joint)) })
      ∧ ((setAllAbsolute st b s e w w_r g).1
          = { st with targetJointPositions :=
                (setAllAbsolute st b s e w w_r g).1.targetJointPositions }
        ∧ (setAllAbsolute st b s e w w_r g).1.targetJointPositions 0
          = st.targetJointPositions 0)
      ∧ ((setAllRelative st b s e w w_r g).1
          = { st with targetJointPositions :=
                (setAllRelative st b s e w w_r g).1.targetJointPositions }
        ∧ (setAllRelative st b s e w w_r g).1.targetJointPositions 0
          = st.targetJointPositions 0))
    ∧ ((update st).targetJointPositions = st.targetJointPositions
      ∧ (update st)._jointMax = st._jointMax
      ∧ (update st)._jointMin = st._jointMin
      ∧ (update st)._jointCenter = st._jointCenter
      ∧ (update st)._jointDelta = st._jointDelta)
    ∧ (((setJointMax st joint v).currentJointPositions = st.currentJointPositions
        ∧ (setJointMax st joint v).targetJointPositions = st.targetJointPositions
        ∧ (setJointMax st joint v)._pwm = st._pwm)
      ∧ ((setJointMin st joint v).currentJointPositions = st.currentJointPositions
        ∧ (setJointMin st joint v).targetJointPositions = st.targetJointPositions
        ∧ (setJointMin st joint v)._pwm = st._pwm)
      ∧ ((setJointCenter st joint v).currentJointPositions = st.currentJointPositions
        ∧ (setJointCenter st joint v).targetJointPositions = st.targetJointPositions
        ∧ (setJointCenter st joint v)._pwm = st._pwm)
      ∧ ((setDelta st joint v).currentJointPositions = st.currentJointPositions
        ∧ (setDelta st joint v).targetJointPositions = st.targetJointPositions
        ∧ (setDelta st joint v)._pwm = st._pwm)) := by
  refine ⟨⟨?_, ?_, ⟨rfl, ?_⟩, ⟨rfl, ?_⟩⟩, update_frame st,
    ⟨rfl, rfl, rfl⟩, ⟨rfl, rfl, rfl⟩, ⟨rfl, rfl, rfl⟩, ⟨rfl, rfl, rfl⟩⟩
  · simp [setOneAbsolute]
  · simp [setOneRelative]
  · simp [setAllAbsolute, setOneAbsolute, Function.update_apply, BASE_ROT, SHOULDER, ELBOW,
      WRIST, WRIST_ROT, GRIPPER]
  · simp [setAllRelative, setOneRelative, Function.update_apply, BASE_ROT, SHOULDER, ELBOW,
      WRIST, WRIST_ROT, GRIPPER]

/-! ## Non-positive steps and the convergence criterion -/

/-- With a non-positive step a position never moves towards the target: it
stays strictly on its side. -/
theorem idealStep_iterate_nonpos (t s c : Int) (hs : s ≤ 0) (k : ℕ) :
    (c < t → (idealStep t s)^[k] c < t) ∧ (t < c → t < (idealStep t s)^[k] c) := by
  induction k with
  | zero => exact ⟨fun h => h, fun h => h⟩
  | succ n ih =>
    rw [Function.iterate_succ_apply']
    generalize (idealStep t s)^[n] c = x at ih
    unfold idealStep
    constructor
    · intro h
      have := ih.1 h
      split_ifs <;> omega
    · intro h
      have := ih.2 h
      split_ifs <;> omega

/-- The driver call of a joint is among the driver calls of the tick. -/
theorem jointWrite_subset_tickWrites (st : Braccio) (joint : Fin 7) (hj : joint ≠ 0) :
    ∀ w ∈ jointWrite st joint, w ∈ tickWrites st := by
  intro w hw
  fin_cases joint
  · exact absurd rfl hj
  all_goals
    simp only [tickWrites, List.mem_append]
    first
      | exact Or.inl (Or.inl (Or.inl (Or.inl (Or.inl hw))))
      | exact Or.inl (Or.inl (Or.inl (Or.inl (Or.inr hw))))
      | exact Or.inl (Or.inl (Or.inl (Or.inr hw)))
      | exact Or.inl (Or.inl (Or.inr hw))
      | exact Or.inl (Or.inr hw)
      | exact Or.inr hw

/-- Over unbounded integers and for a step `s ≤ 0`, the position after `k`
ticks is `c + sign(t - c) * k * s`: the joint moves away from its target, or
stands still. -/
theorem idealStep_iterate_nonpos_formula (t s c : Int) (hs : s ≤ 0) (k : ℕ) :
    (idealStep t s)^[k] c = c + Int.sign (t - c) * k * s := by
  induction k with
  | zero => simp
  | succ n ih =>
    have hside := idealStep_iterate_nonpos t s c hs n
    rw [Function.iterate_succ_apply', ih]
    rw [ih] at hside
    rcases lt_trichotomy c t with hc | hc | hc
    · have hsign : Int.sign (t - c) = 1 := Int.sign_eq_one_of_pos (by omega)
      have hx := hside.1 hc
      rw [hsign] at hx ⊢
      unfold idealStep
      rw [if_pos (by omega), if_pos (by omega)]
      push_cast
      ring
    · subst hc
      simp [idealStep]
    · have hsign : Int.sign (t - c) = -1 := Int.sign_eq_neg_one_of_neg (by omega)
      have hx := hside.2 hc
      rw [hsign] at hx ⊢
      unfold idealStep
      rw [if_pos (by omega), if_neg (by omega)]
      push_cast
      ring

/-- The first positions `0, -3, ..., -15` of the run of `baseNeg` are `int`
values. -/
theorem baseNeg_inIntRange (j : ℕ) (hj : j ≤ 5) :
    inIntRange (baseNeg.currentJointPositions BASE_ROT
      + Int.sign (baseNeg.targetJointPositions BASE_ROT
          - baseNeg.currentJointPositions BASE_ROT) * j
        * baseNeg._jointDelta BASE_ROT) := by
  have hc : baseNeg.currentJointPositions BASE_ROT = 0 := by decide
  have ht : baseNeg.targetJointPositions BASE_ROT = 100 := by decide
  have hd : baseNeg._jointDelta BASE_ROT = -3 := by decide
  have hsg : Int.sign (100 - 0) = 1 := by decide
  rw [hc, ht, hd, hsg]
  unfold inIntRange
  omega

/-- C17, as stated, fails: with the base at 0, target 100 and the negative step
-2147483598 (`baseWrap`) the first `update` takes the base to -2147483598, and
the second one, whose sum overflows the `int` range and wraps around, puts it
on the target 100: the second tick does not increase the distance, and two
`update` calls make the current position equal to the target. -/
theorem C17_negative_step_wraps_onto_target :
    baseWrap._jointDelta BASE_ROT < 0
    ∧ baseWrap.currentJointPositions BASE_ROT = 0
    ∧ baseWrap.targetJointPositions BASE_ROT = 100
    ∧ (update baseWrap).currentJointPositions BASE_ROT = -2147483598
    ∧ (update baseWrap).currentJointPositions BASE_ROT
        ≠ (update baseWrap).targetJointPositions BASE_ROT
    ∧ ¬ (|(update baseWrap).targetJointPositions BASE_ROT
            - (update baseWrap).currentJointPositions BASE_ROT|
          < |(update baseWrap).targetJointPositions BASE_ROT
            - (update (update baseWrap)).currentJointPositions BASE_ROT|)
    ∧ (update^[2] baseWrap).currentJointPositions BASE_ROT
        = (update^[2] baseWrap).targetJointPositions BASE_ROT := by
  decide

/-- C17, amended: `setDelta` stores any integer as the joint's step, unclamped.
For one of the six joints that is not at its target and whose position is an
`int` value: with step 0 an `update` leaves the current position unchanged and
still issues a driver call for the joint, and the position differs from the
target after every number of `update` calls; with a negative step an `update`
whose new position does not overflow the `int` range strictly increases the
distance to the target, and after `k` calls the position is
`c + sign(t - c) * k * s` and differs from the target, as long as none of the
positions up to tick `k` overflows. -/
theorem C17_nonpositive_step_never_converges (st : Braccio) (joint : Fin 7) (hj : joint ≠ 0)
    (v : Int) (hne : st.currentJointPositions joint ≠ st.targetJointPositions joint)
    (hcR : inIntRange (st.currentJointPositions joint)) :
    (setDelta st joint v)._jointDelta joint = v
    ∧ (st._jointDelta joint = 0 →
        (update st).currentJointPositions joint = st.currentJointPositions joint
        ∧ (update st)._pwm = st._pwm ++ tickWrites st
        ∧ (jointPin joint, map (st.currentJointPositions joint) 0 180 0 4096) ∈ tickWrites st
        ∧ ∀ k : ℕ, (update^[k] st).currentJointPositions joint
            ≠ (update^[k] st).targetJointPositions joint)
    ∧ (st._jointDelta joint < 0 →
        inIntRange (idealStep (st.targetJointPositions joint) (st._jointDelta joint)
          (st.currentJointPositions joint)) →
        |st.targetJointPositions joint - st.currentJointPositions joint|
          < |st.targetJointPositions joint - (update st).currentJointPositions joint|)
    ∧ (st._jointDelta joint < 0 → ∀ k : ℕ,
        (∀ j : ℕ, j ≤ k →
          inIntRange (st.currentJointPositions joint
            + Int.sign (st.targetJointPositions joint - st.currentJointPositions joint) * j
              * st._jointDelta joint)) →
        (update^[k] st).currentJointPositions joint
            = st.currentJointPositions joint
              + Int.sign (st.targetJointPositions joint - st.currentJointPositions joint) * k
                * st._jointDelta joint
        ∧ (update^[k] st).currentJointPositions joint
            ≠ (update^[k] st).targetJointPositions joint) := by
  have hrun : ∀ k : ℕ, st._jointDelta joint ≤ 0 →
      (∀ j : ℕ, j ≤ k →
        inIntRange (st.currentJointPositions joint
          + Int.sign (st.targetJointPositions joint - st.currentJointPositions joint) * j
            * st._jointDelta joint)) →
      (update^[k] st).currentJointPositions joint
          = st.currentJointPositions joint
            + Int.sign (st.targetJointPositions joint - st.currentJointPositions joint) * k
              * st._jointDelta joint
      ∧ (update^[k] st).currentJointPositions joint
          ≠ (update^[k] st).targetJointPositions joint := by
    intro k hle hno
    have hw : (stepPos (st.targetJointPositions joint) (st._jointDelta joint))^[k]
        (st.currentJointPositions joint)
        = (idealStep (st.targetJointPositions joint) (st._jointDelta joint))^[k]
          (st.currentJointPositions joint) := by
      apply stepPos_iterate_eq_idealStep
      intro j hjk
      rw [idealStep_iterate_nonpos_formula _ _ _ hle j]
      exact hno j hjk
    rw [update_iterate_current st joint hj k, (update_iterate_frame st k).1, hw]
    refine ⟨idealStep_iterate_nonpos_formula _ _ _ hle k, ?_⟩
    have h := idealStep_iterate_nonpos (st.targetJointPositions joint) (st._jointDelta joint)
      (st.currentJointPositions joint) hle k
    rcases lt_or_gt_of_ne hne with hc | hc
    · exact ne_of_lt (h.1 hc)
    · exact ne_of_gt (h.2 hc)
  refine ⟨by simp [setDelta], fun h0 => ?_, fun hneg hin => ?_, fun hneg k hno =>
    hrun k hneg.le hno⟩
  · have hstep : stepPos (st.targetJointPositions joint) (st._jointDelta joint)
        (st.currentJointPositions joint) = st.currentJointPositions joint := by
      rw [stepPos_eq_idealStep]
      · simp [idealStep, h0]
      · simpa [idealStep, h0] using hcR
    refine ⟨by rw [update_current st joint hj, hstep], update_pwm st, ?_, fun k => ?_⟩
    · apply jointWrite_subset_tickWrites st joint hj
      simp [jointWrite, hne, hstep]
    · exact (hrun k h0.le (fun j _ => by simpa [h0] using hcR)).2
  · rw [update_current st joint hj, stepPos_eq_idealStep _ _ _ hin]
    generalize st.currentJointPositions joint = c at *
    generalize st.targetJointPositions joint = t at *
    generalize st._jointDelta joint = s at *
    unfold idealStep
    rw [if_pos hne]
    rcases lt_or_gt_of_ne hne with hc | hc
    · rw [if_pos hc.le, abs_of_pos (show 0 < t - c by omega),
        abs_of_pos (show 0 < t - (c + 1 * s) by omega)]
      omega
    · rw [if_neg (by omega), abs_of_neg (show t - c < 0 by omega),
        abs_of_neg (show t - (c + -1 * s) < 0 by omega)]
      omega

/-- Witness of C17, amended: with the base at 0, target 100 and step 0 (`base0`)
one `update` leaves the base at 0 and issues the driver call `(1, 0)`; with
step -3 (`baseNeg`) one `update` takes the base to -3, and after 5 calls the
base is at `0 + 1 * 5 * (-3)`, off its target. -/
theorem C17_nonpositive_step_never_converges_witness :
    ((update base0).currentJointPositions BASE_ROT = base0.currentJointPositions BASE_ROT
      ∧ (update base0)._pwm = [(1, 0)])
    ∧ (update baseNeg).currentJointPositions BASE_ROT = -3
    ∧ (update^[5] baseNeg).currentJointPositions BASE_ROT
        ≠ (update^[5] baseNeg).targetJointPositions BASE_ROT :=
  ⟨⟨((C17_nonpositive_step_never_converges base0 BASE_ROT (by decide) 0 (by decide)
      (by decide)).2.1 (by decide)).1, by decide⟩,
    by decide,
    ((C17_nonpositive_step_never_converges baseNeg BASE_ROT (by decide) 0 (by decide)
      (by decide)).2.2.2 (by decide) 5 baseNeg_inIntRange).2⟩

/-- C19: on a controller whose limit tables are the compiled defaults,
`setOneAbsolute(BASE_ROT, v)` returns `false` for every `v`, and so
`setAllAbsolute` returns `false` for every choice of its six arguments. In
every state, `setOneAbsolute(joint, v)` returns `true` exactly when `v` clamped
to the joint's limits equals the joint's identifier number. -/
theorem C19_setOneAbsolute_true_iff_joint_number (st : Braccio)
    (hmin : st._jointMin = arrayInit [0, 15, 0, 0, 0, 10])
    (hmax : st._jointMax = arrayInit [180, 165, 180, 180, 180, 73]) :
    (∀ v : Int, (setOneAbsolute st BASE_ROT v).2 = false)
    ∧ (∀ b s e w w_r g : Int, (setAllAbsolute st b s e w w_r g).2 = false)
    ∧ (∀ (st' : Braccio) (joint : Fin 7) (v : Int),
        (setOneAbsolute st' joint v).2 = true
          ↔ constrain v (st'._jointMin joint) (st'._jointMax joint) = (joint.val : Int)) := by
  have h1 : ∀ v : Int, (setOneAbsolute st BASE_ROT v).2 = false := by
    intro v
    have hlo : st._jointMin BASE_ROT = 15 := by rw [hmin]; rfl
    have hhi : st._jointMax BASE_ROT = 165 := by rw [hmax]; rfl
    have hb : ((BASE_ROT : Fin 7).val : Int) = 1 := rfl
    simp only [setOneAbsolute, hlo, hhi, hb, decide_eq_false_iff_not]
    have := constrain_mem v 15 165 (by decide)
    omega
  refine ⟨h1, fun b s e w w_r g => ?_, fun st' joint v => ?_⟩
  · simp only [setAllAbsolute, h1 b, Bool.and_false, Bool.false_and]
  · simp only [setOneAbsolute, decide_eq_true_eq]
    exact eq_comm

/-- Witness of C19: on the power-on state `setOneAbsolute(BASE_ROT, 90)` returns
`false` although 90 lies within the base limits `[15, 165]`, and
`setAllAbsolute(90, 90, 90, 90, 50, 0)`, whose arguments all lie within their
joints' limits, returns `false`. -/
theorem C19_setOneAbsolute_true_iff_joint_number_witness :
    (powerOn._jointMin BASE_ROT ≤ 90 ∧ 90 ≤ powerOn._jointMax BASE_ROT)
    ∧ (setOneAbsolute powerOn BASE_ROT 90).2 = false
    ∧ (setAllAbsolute powerOn 90 90 90 90 50 0).2 = false
    ∧ (setAllAbsolute powerOn 90 90 90 90 50 0).1.targetJointPositions
        = (fun j => if j = 0 then 0 else if j = WRIST_ROT then 50 else if j = GRIPPER then 0
            else 90) :=
  ⟨by decide, (C19_setOneAbsolute_true_iff_joint_number powerOn rfl rfl).1 90,
    (C19_setOneAbsolute_true_iff_joint_number powerOn rfl rfl).2.1 90 90 90 90 50 0,
    by decide⟩

end Braccio

end BraccioV3
